import Mathlib

/-!
Shallow embedding of the conversation-management and information-extraction
program (source file final_assignment.py) together with proofs of the
specified buffer and validation properties.

Task 1 of the source (class SimpleChat) maintains a list of role/content
messages, summarizes old history every few turns, and applies a three-stage
truncation cascade (message count, character count, word count).  Task 2
(class InfoExtractor) extracts a five-field record and validates it.

External collaborator calls (the completion backend, the summarization
backend, the extraction backend) are modelled as explicit parameters: a
successful call supplies its result, a failed call is `none`.
-/

/-- A single conversation entry, mirroring the Python dict with keys
role and content. -/
structure Message where
  role : String
  content : String
deriving DecidableEq, Repr

/-- The four session limits from SimpleChat.__init__ (max_messages,
max_chars, max_words, summarize_every).  The specification fixes all of
them to be positive integers. -/
structure Config where
  maxMessages : Nat
  maxChars : Nat
  maxWords : Nat
  summarizeEvery : Nat
deriving DecidableEq, Repr

/-- Python str.split() with no argument: the number of maximal runs of
non-whitespace characters. -/
def wordCount (s : String) : Nat :=
  ((s.split fun c => c.isWhitespace).filter fun w => !(w == "")).length

/-- Sum of a per-message measure over the buffer (the running totals the
source keeps during char/word truncation). -/
def totalMeasure (f : Message → Nat) (l : List Message) : Nat :=
  (l.map f).sum

/-- Total character count of the buffer: sum(len(msg content) for msg in messages). -/
def totalChars (l : List Message) : Nat :=
  totalMeasure (fun m => m.content.length) l

/-- Total whitespace-token count of the buffer. -/
def totalWords (l : List Message) : Nat :=
  totalMeasure (fun m => wordCount m.content) l

/-- Python negative-index slice l[-k:]: for k = 0 this is the whole list
(since -0 is 0), otherwise the last k elements (all of l when k exceeds
its length). -/
def pythonTakeLast (k : Nat) (l : List α) : List α :=
  if k = 0 then l else l.drop (l.length - k)

/-- Stage (a) of _apply_truncation: if len(messages) > max_messages, keep
only the last max_messages entries. -/
def countTruncate (maxMessages : Nat) (l : List Message) : List Message :=
  if maxMessages < l.length then pythonTakeLast maxMessages l else l

/-- The common shape of stages (b) and (c) of _apply_truncation: while the
total measure exceeds the cap and more than 2 entries remain, pop the
oldest entry (messages.pop(0)) and subtract its measure from the running
total.  The running total always equals the recomputed sum of the
remaining entries, so the loop is the following structural recursion. -/
def budgetTruncate (f : Message → Nat) (cap : Nat) : List Message → List Message
  | [] => []
  | m :: rest =>
    if cap < totalMeasure f (m :: rest) ∧ 2 < (m :: rest).length then
      budgetTruncate f cap rest
    else
      m :: rest

/-- Stage (b): character-cap truncation. -/
def charTruncate (maxChars : Nat) (l : List Message) : List Message :=
  budgetTruncate (fun m => m.content.length) maxChars l

/-- Stage (c): word-cap truncation. -/
def wordTruncate (maxWords : Nat) (l : List Message) : List Message :=
  budgetTruncate (fun m => wordCount m.content) maxWords l

/-- _apply_truncation: the three stages in their fixed order, each acting
on the buffer left by the previous one. -/
def applyTruncation (cfg : Config) (l : List Message) : List Message :=
  wordTruncate cfg.maxWords (charTruncate cfg.maxChars (countTruncate cfg.maxMessages l))

/-- The synthetic summary entry built in _summarize.  The source tags it
with role assistant and content formatted as the f-string
[SUMMARY: digest] (the specification models this synthetic entry as the
SummaryMarker role). -/
def summaryMessage (digest : String) : Message :=
  Message.mk "assistant" ("[SUMMARY: " ++ digest ++ "]")

/-- _summarize: return unchanged if fewer than 3 entries; otherwise call
the summarization collaborator on messages[:-2].  On success (some digest)
replace the buffer with the summary entry followed by messages[-2:]; on
failure (none) the exception is caught and the buffer is left untouched. -/
def summarize (summaryResult : Option String) (msgs : List Message) : List Message :=
  if msgs.length < 3 then msgs
  else
    match summaryResult with
    | none => msgs
    | some digest => summaryMessage digest :: pythonTakeLast 2 msgs

/-- The mutable state of a SimpleChat session: its immutable limits, the
message buffer, and the turn counter. -/
structure ChatState where
  cfg : Config
  messages : List Message
  turnCount : Nat
deriving DecidableEq, Repr

/-- One successful call of SimpleChat.chat, with the two collaborator
results supplied as parameters (summaryResult is consumed only when the
compaction branch is entered; assistantResponse is the completion call's
reply).  Returns the new state together with whether the compaction
branch was entered.  Steps, in source order: append the user message,
increment turn_count, summarize when turn_count mod summarize_every == 0
and len(messages) > 3, apply truncation, then append the assistant reply
without re-running truncation. -/
def chat (st : ChatState) (userMessage : String) (summaryResult : Option String)
    (assistantResponse : String) : ChatState × Bool :=
  let msgs1 := st.messages ++ [Message.mk "user" userMessage]
  let tc1 := st.turnCount + 1
  let triggered := decide (tc1 % st.cfg.summarizeEvery = 0 ∧ 3 < msgs1.length)
  let msgs2 := if triggered then summarize summaryResult msgs1 else msgs1
  let msgs3 := applyTruncation st.cfg msgs2
  (ChatState.mk st.cfg (msgs3 ++ [Message.mk "assistant" assistantResponse]) tc1, triggered)

/-! ### Helper lemmas about the truncation cascade -/

theorem budgetTruncate_suffix (f : Message → Nat) (cap : Nat) :
    ∀ l : List Message, (budgetTruncate f cap l) <:+ l
  | [] => by simp [budgetTruncate]
  | m :: rest => by
    rw [budgetTruncate]
    split
    · exact (budgetTruncate_suffix f cap rest).trans (List.suffix_cons m rest)
    · exact List.suffix_refl _

theorem budgetTruncate_post (f : Message → Nat) (cap : Nat) :
    ∀ l : List Message,
      totalMeasure f (budgetTruncate f cap l) ≤ cap ∨ (budgetTruncate f cap l).length ≤ 2
  | [] => Or.inr (by simp [budgetTruncate])
  | m :: rest => by
    rw [budgetTruncate]
    split
    · exact budgetTruncate_post f cap rest
    · rename_i h
      rw [not_and_or, not_lt, not_lt] at h
      exact h

theorem budgetTruncate_eq_self (f : Message → Nat) (cap : Nat) (l : List Message)
    (h : totalMeasure f l ≤ cap ∨ l.length ≤ 2) : budgetTruncate f cap l = l := by
  cases l with
  | nil => simp [budgetTruncate]
  | cons m rest =>
    rw [budgetTruncate, if_neg]
    rw [not_and_or, not_lt, not_lt]
    exact h

theorem totalMeasure_append (f : Message → Nat) (l1 l2 : List Message) :
    totalMeasure f (l1 ++ l2) = totalMeasure f l1 + totalMeasure f l2 := by
  simp [totalMeasure]

theorem totalMeasure_suffix_le (f : Message → Nat) {l1 l2 : List Message}
    (h : l1 <:+ l2) : totalMeasure f l1 ≤ totalMeasure f l2 := by
  obtain ⟨pre, rfl⟩ := h
  rw [totalMeasure_append]
  exact Nat.le_add_left _ _

theorem budgetTruncate_length_floor (f : Message → Nat) (cap : Nat) :
    ∀ l : List Message, min 2 l.length ≤ (budgetTruncate f cap l).length
  | [] => by simp [budgetTruncate]
  | m :: rest => by
    rw [budgetTruncate]
    split
    · rename_i h
      have hlen : 2 ≤ rest.length := by
        have h2 := h.2
        simp only [List.length_cons] at h2
        omega
      have ih := budgetTruncate_length_floor f cap rest
      simp only [List.length_cons]
      omega
    · simp only [List.length_cons]
      omega

theorem pythonTakeLast_length_le (k : Nat) (hk : 0 < k) (l : List α) :
    (pythonTakeLast k l).length ≤ k := by
  rw [pythonTakeLast, if_neg (Nat.pos_iff_ne_zero.mp hk)]
  rw [List.length_drop]
  omega

theorem countTruncate_length_le {m : Nat} (hm : 0 < m) (l : List Message) :
    (countTruncate m l).length ≤ m := by
  rw [countTruncate]
  split
  · exact pythonTakeLast_length_le m hm l
  · omega

theorem countTruncate_eq_self {m : Nat} {l : List Message}
    (h : l.length ≤ m ∨ m = 0) : countTruncate m l = l := by
  rcases h with h | h
  · rw [countTruncate, if_neg]
    omega
  · subst h
    rw [countTruncate, pythonTakeLast]
    simp

theorem applyTruncation_length_le (cfg : Config) (l : List Message)
    (h : 0 < cfg.maxMessages) : (applyTruncation cfg l).length ≤ cfg.maxMessages := by
  rw [applyTruncation]
  have h1 := countTruncate_length_le h l
  have h2 := (budgetTruncate_suffix (fun m => m.content.length) cfg.maxChars
    (countTruncate cfg.maxMessages l)).length_le
  have h3 := (budgetTruncate_suffix (fun m => wordCount m.content) cfg.maxWords
    (charTruncate cfg.maxChars (countTruncate cfg.maxMessages l))).length_le
  rw [charTruncate, wordTruncate] at *
  omega

theorem summarize_none (msgs : List Message) : summarize none msgs = msgs := by
  rw [summarize]
  split <;> rfl

/-! ### Task 2: information extraction and validation -/

/-- A JSON scalar as it can appear in a field of the record parsed by
InfoExtractor.extract: null, an integer, or a string.  The schema types
age as integer-or-null, but the validation code explicitly handles an age
value that is present yet not an integer (isinstance check), so the age
field ranges over this type. -/
inductive JsonVal where
  | null
  | int (n : Int)
  | str (s : String)
deriving DecidableEq, Repr

/-- The five-field record of the extraction schema: name, email, phone
and location are nullable strings, age is a JSON scalar (see JsonVal). -/
structure ExtractedRecord where
  name : Option String
  email : Option String
  phone : Option String
  location : Option String
  age : JsonVal
deriving DecidableEq, Repr

/-- The dict returned by InfoExtractor.validate. -/
structure ValidationResult where
  is_valid : Bool
  errors : List String
  warnings : List String
  extracted_count : Nat
deriving DecidableEq, Repr

/-- The all-null record returned when the extraction call fails. -/
def allNullRecord : ExtractedRecord :=
  ExtractedRecord.mk none none none none JsonVal.null

/-- InfoExtractor.extract: call the extraction collaborator on the text;
on any failure the exception is caught and the all-null record is
returned.  A successful call's parsed record is the outcome parameter. -/
def extract (_text : String) (outcome : Option ExtractedRecord) : ExtractedRecord :=
  match outcome with
  | some result => result
  | none => allNullRecord

/-- Python str.isdigit restricted to the ASCII strings the validator
sees: true iff the string is nonempty and every character is a digit. -/
def pyIsdigit (s : String) : Bool :=
  !(s == "") && s.toList.all fun c => c.isDigit

/-- The phone normalization in validate: remove spaces, dashes and
parentheses (the chained str.replace calls). -/
def stripPhoneChars (s : String) : String :=
  String.mk (s.toList.filter fun c => !(c == ' ' || c == '-' || c == '(' || c == ')'))

/-- The age branch of validate: an out-of-range integer age appends the
warning "Age seems unrealistic"; anything else appends none. -/
def ageWarnings : JsonVal → List String
  | JsonVal.int n => if n < 0 ∨ 150 < n then ["Age seems unrealistic"] else []
  | _ => []

/-- The age branch of validate: a present non-integer age appends the
error "Age must be integer". -/
def ageErrors : JsonVal → List String
  | JsonVal.str _ => ["Age must be integer"]
  | _ => []

/-- is_valid after the age branch: false exactly when age is present but
not an integer. -/
def ageValid : JsonVal → Bool
  | JsonVal.str _ => false
  | _ => true

/-- The email branch of validate: guarded by Python truthiness
(data.get("email") is skipped for None and for the empty string), warns
when the string contains no '@' character. -/
def emailWarnings : Option String → List String
  | some s => if !(s == "") && !(s.toList.contains '@') then ["Email format seems invalid"] else []
  | none => []

/-- The phone branch of validate: guarded by Python truthiness, warns
when the normalized form is not all digits or has fewer than 10
characters. -/
def phoneWarnings : Option String → List String
  | some s =>
    if !(s == "") && (!(pyIsdigit (stripPhoneChars s)) || (stripPhoneChars s).length < 10) then
      ["Phone format seems invalid"]
    else []
  | none => []

/-- Number of non-null fields of the record. -/
def extractedCount (d : ExtractedRecord) : Nat :=
  (if d.name.isSome then 1 else 0) + (if d.email.isSome then 1 else 0) +
    (if d.phone.isSome then 1 else 0) + (if d.location.isSome then 1 else 0) +
    (if d.age == JsonVal.null then 0 else 1)

/-- InfoExtractor.validate, assembled from the branches above in source
order: the age checks run first, then the email check, then the phone
check, so the warnings list is their concatenation in that order. -/
def validate (data : ExtractedRecord) : ValidationResult :=
  ValidationResult.mk
    (ageValid data.age)
    (ageErrors data.age)
    (ageWarnings data.age ++ emailWarnings data.email ++ phoneWarnings data.phone)
    (extractedCount data)

/-- Modelled from the spec (claim wording for the phone check): the
digit-only normalized form of a phone string, i.e. the count of its digit
characters.  Used to state the phone-warning claim against the source
condition, which instead tests isdigit and length on the
punctuation-stripped string. -/
def specPhoneDigitCount (s : String) : Nat :=
  (s.toList.filter fun c => c.isDigit).length

/-! ### Helper lemmas about validation warnings -/

theorem mem_ageWarnings {s : String} {v : JsonVal} (h : s ∈ ageWarnings v) :
    s = "Age seems unrealistic" := by
  cases v with
  | null => simp [ageWarnings] at h
  | str t => simp [ageWarnings] at h
  | int n =>
    simp only [ageWarnings] at h
    split at h
    · simpa using h
    · simp at h

theorem mem_emailWarnings {s : String} {e : Option String} (h : s ∈ emailWarnings e) :
    s = "Email format seems invalid" := by
  cases e with
  | none => simp [emailWarnings] at h
  | some t =>
    simp only [emailWarnings] at h
    split at h
    · simpa using h
    · simp at h

theorem mem_phoneWarnings {s : String} {p : Option String} (h : s ∈ phoneWarnings p) :
    s = "Phone format seems invalid" := by
  cases p with
  | none => simp [phoneWarnings] at h
  | some t =>
    simp only [phoneWarnings] at h
    split at h
    · simpa using h
    · simp at h

theorem validate_warnings (d : ExtractedRecord) :
    (validate d).warnings =
      ageWarnings d.age ++ emailWarnings d.email ++ phoneWarnings d.phone := rfl

/-! ### The claims -/

/-- C1: For every buffer and every configuration (the specification fixes
every limit, in particular maxMessages, to be a positive integer), after
the three-stage truncation cascade _apply_truncation completes, the number
of entries in the buffer is at most maxMessages. -/
theorem c1_count_cap_invariant (cfg : Config) (l : List Message)
    (h : 0 < cfg.maxMessages) :
    (applyTruncation cfg l).length ≤ cfg.maxMessages :=
  applyTruncation_length_le cfg l h

def wCfg : Config := Config.mk 1 5 5 3

def wMsgs : List Message := [Message.mk "user" "hello", Message.mk "user" "there"]

theorem c1_count_cap_invariant_witness :
    0 < wCfg.maxMessages ∧ (applyTruncation wCfg wMsgs).length ≤ wCfg.maxMessages :=
  ⟨by decide, c1_count_cap_invariant wCfg wMsgs (by decide)⟩

/-- C2: For every buffer on which compaction succeeds (at least 3 entries,
so the early return in _summarize does not fire, and the summarization
call returns a digest), the resulting buffer is exactly one new synthetic
summary message — role assistant in the source, the SummaryMarker of the
specification — whose content is the concatenation
[SUMMARY: digest] followed by the two most recent pre-compaction entries
verbatim and in order. -/
theorem c2_compaction_shape (msgs : List Message) (digest : String)
    (h : 3 ≤ msgs.length) :
    summarize (some digest) msgs =
        summaryMessage digest :: msgs.drop (msgs.length - 2) ∧
      (msgs.drop (msgs.length - 2)).length = 2 := by
  constructor
  · rw [summarize, if_neg (by omega)]
    rw [pythonTakeLast, if_neg (by omega)]
  · rw [List.length_drop]
    omega

def c2Msgs : List Message :=
  [Message.mk "user" "a", Message.mk "assistant" "b", Message.mk "user" "c"]

theorem c2_compaction_shape_witness :
    3 ≤ c2Msgs.length ∧
      (summarize (some "d") c2Msgs =
          summaryMessage "d" :: c2Msgs.drop (c2Msgs.length - 2) ∧
        (c2Msgs.drop (c2Msgs.length - 2)).length = 2) :=
  ⟨by decide, c2_compaction_shape c2Msgs "d" (by decide)⟩

/-- C3: The truncation cascade is idempotent: for every buffer and every
configuration, applying _apply_truncation a second time to the buffer
produced by a first application leaves the buffer unchanged. -/
theorem c3_truncation_idempotent (cfg : Config) (l : List Message) :
    applyTruncation cfg (applyTruncation cfg l) = applyTruncation cfg l := by
  simp only [applyTruncation, charTruncate, wordTruncate]
  have hsuf3 : budgetTruncate (fun m => wordCount m.content) cfg.maxWords
        (budgetTruncate (fun m => m.content.length) cfg.maxChars
          (countTruncate cfg.maxMessages l)) <:+
      budgetTruncate (fun m => m.content.length) cfg.maxChars
        (countTruncate cfg.maxMessages l) := budgetTruncate_suffix _ _ _
  have hcount : countTruncate cfg.maxMessages
      (budgetTruncate (fun m => wordCount m.content) cfg.maxWords
        (budgetTruncate (fun m => m.content.length) cfg.maxChars
          (countTruncate cfg.maxMessages l))) =
      budgetTruncate (fun m => wordCount m.content) cfg.maxWords
        (budgetTruncate (fun m => m.content.length) cfg.maxChars
          (countTruncate cfg.maxMessages l)) := by
    apply countTruncate_eq_self
    rcases Nat.eq_zero_or_pos cfg.maxMessages with hm | hm
    · exact Or.inr hm
    · refine Or.inl ?_
      have h1 := countTruncate_length_le hm l
      have h2 := (budgetTruncate_suffix (fun m => m.content.length) cfg.maxChars
        (countTruncate cfg.maxMessages l)).length_le
      have h3 := hsuf3.length_le
      omega
  rw [hcount]
  have hchar : budgetTruncate (fun m => m.content.length) cfg.maxChars
      (budgetTruncate (fun m => wordCount m.content) cfg.maxWords
        (budgetTruncate (fun m => m.content.length) cfg.maxChars
          (countTruncate cfg.maxMessages l))) =
      budgetTruncate (fun m => wordCount m.content) cfg.maxWords
        (budgetTruncate (fun m => m.content.length) cfg.maxChars
          (countTruncate cfg.maxMessages l)) := by
    apply budgetTruncate_eq_self
    rcases budgetTruncate_post (fun m => m.content.length) cfg.maxChars
        (countTruncate cfg.maxMessages l) with h | h
    · exact Or.inl (le_trans (totalMeasure_suffix_le _ hsuf3) h)
    · exact Or.inr (le_trans hsuf3.length_le h)
  rw [hchar]
  exact budgetTruncate_eq_self _ _ _ (budgetTruncate_post _ _ _)

/-- C4: If the summarization collaborator call fails during a compaction
attempt, the buffer's entries are exactly the same before and after the
attempt (no partial compaction), and the turn proceeds normally with the
un-compacted history: the turn's final buffer is the truncation of the
appended-user buffer followed by the assistant reply. -/
theorem c4_summarize_failure_noop (st : ChatState) (u a : String) :
    summarize none (st.messages ++ [Message.mk "user" u]) =
        st.messages ++ [Message.mk "user" u] ∧
      (chat st u none a).1.messages =
        applyTruncation st.cfg (st.messages ++ [Message.mk "user" u]) ++
          [Message.mk "assistant" a] := by
  refine ⟨summarize_none _, ?_⟩
  simp only [chat, summarize_none, ite_self]

/-- C5: In every turn (summarizeEvery positive, as the specification's
configuration requires — Python would raise on a zero modulus), the
compaction branch is entered if and only if, after the user message is
appended and turnCount is incremented, turnCount mod summarizeEvery = 0
and the buffer has strictly more than 3 entries; in particular compaction
never triggers when the post-append buffer has 3 or fewer entries,
regardless of turnCount. -/
theorem c5_compaction_trigger (st : ChatState) (u : String) (res : Option String)
    (a : String) (_hse : 0 < st.cfg.summarizeEvery) :
    ((chat st u res a).2 = true ↔
        ((st.turnCount + 1) % st.cfg.summarizeEvery = 0 ∧
          3 < st.messages.length + 1)) ∧
      (st.messages.length + 1 ≤ 3 → (chat st u res a).2 = false) := by
  have hmain : (chat st u res a).2 = true ↔
      ((st.turnCount + 1) % st.cfg.summarizeEvery = 0 ∧ 3 < st.messages.length + 1) := by
    simp [chat]
  refine ⟨hmain, ?_⟩
  intro hle
  rw [Bool.eq_false_iff]
  intro htrue
  have h2 := (hmain.mp htrue).2
  omega

def c5State : ChatState :=
  ChatState.mk (Config.mk 10 100 100 2)
    [Message.mk "user" "a", Message.mk "assistant" "b", Message.mk "user" "c"] 1

theorem c5_compaction_trigger_witness :
    0 < c5State.cfg.summarizeEvery ∧
      (((chat c5State "u" none "a").2 = true ↔
          ((c5State.turnCount + 1) % c5State.cfg.summarizeEvery = 0 ∧
            3 < c5State.messages.length + 1)) ∧
        (c5State.messages.length + 1 ≤ 3 → (chat c5State "u" none "a").2 = false)) :=
  ⟨by decide, c5_compaction_trigger c5State "u" none "a" (by decide)⟩

/-- C6: For every buffer, the character-cap and word-cap truncation
stages never reduce the number of entries below 2: each preserves at
least min 2 (length of the input), and on a buffer of exactly 2 entries
each stage is the identity even when the budget is still exceeded. -/
theorem c6_truncation_floor (c w : Nat) (l : List Message) (a b : Message) :
    min 2 l.length ≤ (charTruncate c l).length ∧
      min 2 l.length ≤ (wordTruncate w l).length ∧
      charTruncate c [a, b] = [a, b] ∧ wordTruncate w [a, b] = [a, b] :=
  ⟨budgetTruncate_length_floor _ _ _, budgetTruncate_length_floor _ _ _,
    budgetTruncate_eq_self _ _ _ (Or.inr (by simp)),
    budgetTruncate_eq_self _ _ _ (Or.inr (by simp))⟩

/-- C7: A successfully completed turn appends the assistant reply after
truncation without re-running truncation: the final buffer is exactly the
truncation of some intermediate buffer with the assistant message
appended, so (with maxMessages positive, per the specification's
configuration) the buffer at turn end has at most maxMessages + 1
entries. -/
theorem c7_post_turn_bound (st : ChatState) (u : String) (res : Option String)
    (a : String) (h : 0 < st.cfg.maxMessages) :
    (∃ pre : List Message,
        (chat st u res a).1.messages =
          applyTruncation st.cfg pre ++ [Message.mk "assistant" a]) ∧
      (chat st u res a).1.messages.length ≤ st.cfg.maxMessages + 1 := by
  constructor
  · exact ⟨if decide ((st.turnCount + 1) % st.cfg.summarizeEvery = 0 ∧
        3 < (st.messages ++ [Message.mk "user" u]).length) then
          summarize res (st.messages ++ [Message.mk "user" u])
        else st.messages ++ [Message.mk "user" u], rfl⟩
  · have hb := applyTruncation_length_le st.cfg
      (if decide ((st.turnCount + 1) % st.cfg.summarizeEvery = 0 ∧
          3 < (st.messages ++ [Message.mk "user" u]).length) then
            summarize res (st.messages ++ [Message.mk "user" u])
          else st.messages ++ [Message.mk "user" u]) h
    have hlen : (chat st u res a).1.messages.length =
        (applyTruncation st.cfg
          (if decide ((st.turnCount + 1) % st.cfg.summarizeEvery = 0 ∧
              3 < (st.messages ++ [Message.mk "user" u]).length) then
                summarize res (st.messages ++ [Message.mk "user" u])
              else st.messages ++ [Message.mk "user" u])).length + 1 := by
      show (applyTruncation st.cfg _ ++ [Message.mk "assistant" a]).length = _
      rw [List.length_append]
      rfl
    omega

theorem c7_post_turn_bound_witness :
    0 < c5State.cfg.maxMessages ∧
      ((∃ pre : List Message,
          (chat c5State "u" none "a").1.messages =
            applyTruncation c5State.cfg pre ++ [Message.mk "assistant" "a"]) ∧
        (chat c5State "u" none "a").1.messages.length ≤ c5State.cfg.maxMessages + 1) :=
  ⟨by decide, c7_post_turn_bound c5State "u" none "a" (by decide)⟩

/-- C8: For every extracted record, validate sets is_valid to false
exactly when age is present (non-null) and not an integer, and the
warning for an out-of-range integer age is appended exactly when age is
an integer outside 0..150 — so an out-of-range integer age leaves
is_valid true and yields a warning instead. -/
theorem c8_age_validity (d : ExtractedRecord) :
    ((validate d).is_valid = false ↔
        (d.age ≠ JsonVal.null ∧ ∀ n : Int, d.age ≠ JsonVal.int n)) ∧
      ("Age seems unrealistic" ∈ (validate d).warnings ↔
        ∃ n : Int, d.age = JsonVal.int n ∧ (n < 0 ∨ 150 < n)) := by
  constructor
  · show ageValid d.age = false ↔ _
    cases hage : d.age with
    | null =>
      simp only [ageValid]
      constructor
      · intro h; exact absurd h (by simp)
      · intro h; exact absurd rfl h.1
    | int n =>
      simp only [ageValid]
      constructor
      · intro h; exact absurd h (by simp)
      · intro h; exact absurd rfl (h.2 n)
    | str s =>
      constructor
      · intro _
        exact ⟨fun hc => JsonVal.noConfusion hc, fun n hc => JsonVal.noConfusion hc⟩
      · intro _
        rfl
  · constructor
    · intro h
      have h2 : "Age seems unrealistic" ∈
          ageWarnings d.age ++ emailWarnings d.email ++ phoneWarnings d.phone := h
      rw [List.mem_append, List.mem_append] at h2
      rcases h2 with (h2 | h2) | h2
      · cases hage : d.age with
        | null => rw [hage] at h2; simp [ageWarnings] at h2
        | str s => rw [hage] at h2; simp [ageWarnings] at h2
        | int n =>
          rw [hage] at h2
          simp only [ageWarnings] at h2
          split at h2
          · rename_i hcond
            exact ⟨n, rfl, hcond⟩
          · simp at h2
      · exact absurd (mem_emailWarnings h2) (by decide)
      · exact absurd (mem_phoneWarnings h2) (by decide)
    · rintro ⟨n, hage, hrange⟩
      show "Age seems unrealistic" ∈
        ageWarnings d.age ++ emailWarnings d.email ++ phoneWarnings d.phone
      rw [List.mem_append, List.mem_append]
      refine Or.inl (Or.inl ?_)
      rw [hage]
      simp [ageWarnings, hrange]

def c9Record : ExtractedRecord :=
  ExtractedRecord.mk none none (some "") none JsonVal.null

/-- C9 counterexample: the claim says that for every record with a
non-null phone value a phone-format warning is raised iff the digit-only
normalized form of the phone has fewer than 10 digits.  The record whose
phone is the non-null empty string refutes it: the empty string has 0
digits, yet validate raises no phone warning, because the source guards
the phone check with Python truthiness (if data.get("phone"):), which
skips the empty string. -/
theorem c9_phone_warning_counterexample :
    c9Record.phone = some "" ∧
      ¬(("Phone format seems invalid" ∈ (validate c9Record).warnings) ↔
          specPhoneDigitCount "" < 10) := by
  decide

def c9RecordOk : ExtractedRecord :=
  ExtractedRecord.mk none none (some "555-123-4567") none JsonVal.null

def c9RecordShort : ExtractedRecord :=
  ExtractedRecord.mk none none (some "12345") none JsonVal.null

/-- C9 amended: for every record whose phone value is a non-null,
non-empty string s, validate raises a phone-format warning if and only
if the normalized form of s (spaces, dashes and parentheses removed) is
not made of digits only or has fewer than 10 characters; in particular
the phone 555-123-4567 (normalized to exactly 10 digits) yields no phone
warning and the phone 12345 yields one. -/
theorem c9_phone_warning_amended (d : ExtractedRecord) (s : String)
    (hp : d.phone = some s) (hs : s ≠ "") :
    (("Phone format seems invalid" ∈ (validate d).warnings) ↔
        (pyIsdigit (stripPhoneChars s) = false ∨ (stripPhoneChars s).length < 10)) ∧
      "Phone format seems invalid" ∉ (validate c9RecordOk).warnings ∧
      "Phone format seems invalid" ∈ (validate c9RecordShort).warnings := by
  refine ⟨?_, by decide, by decide⟩
  constructor
  · intro h
    have h2 : "Phone format seems invalid" ∈
        ageWarnings d.age ++ emailWarnings d.email ++ phoneWarnings d.phone := h
    rw [List.mem_append, List.mem_append] at h2
    rcases h2 with (h2 | h2) | h2
    · exact absurd (mem_ageWarnings h2) (by decide)
    · exact absurd (mem_emailWarnings h2) (by decide)
    · rw [hp] at h2
      simp only [phoneWarnings] at h2
      split at h2
      · rename_i hcond
        rw [Bool.and_eq_true] at hcond
        have hor := hcond.2
        rw [Bool.or_eq_true] at hor
        rcases hor with hor | hor
        · refine Or.inl ?_
          simpa using hor
        · exact Or.inr (of_decide_eq_true hor)
      · simp at h2
  · intro hcond
    show "Phone format seems invalid" ∈
      ageWarnings d.age ++ emailWarnings d.email ++ phoneWarnings d.phone
    rw [List.mem_append, List.mem_append]
    refine Or.inr ?_
    rw [hp]
    simp only [phoneWarnings]
    rw [if_pos]
    · exact List.mem_singleton.mpr rfl
    · rw [Bool.and_eq_true]
      refine ⟨by simp [hs], ?_⟩
      rw [Bool.or_eq_true]
      rcases hcond with hc | hc
      · refine Or.inl ?_
        simp [hc]
      · exact Or.inr (decide_eq_true hc)

theorem c9_phone_warning_amended_witness :
    c9RecordShort.phone = some "12345" ∧ "12345" ≠ "" ∧
      ((("Phone format seems invalid" ∈ (validate c9RecordShort).warnings) ↔
          (pyIsdigit (stripPhoneChars "12345") = false ∨
            (stripPhoneChars "12345").length < 10)) ∧
        "Phone format seems invalid" ∉ (validate c9RecordOk).warnings ∧
        "Phone format seems invalid" ∈ (validate c9RecordShort).warnings) :=
  ⟨rfl, by decide, c9_phone_warning_amended c9RecordShort "12345" rfl (by decide)⟩

/-- C10: If the extraction collaborator call fails, extract never raises
to the caller (it is a total function into records) and returns the
well-formed all-null record: every one of name, email, phone, location
and age is null, for any input text. -/
theorem c10_extract_failure (text : String) :
    extract text none = allNullRecord ∧
      (extract text none).name = none ∧ (extract text none).email = none ∧
      (extract text none).phone = none ∧ (extract text none).location = none ∧
      (extract text none).age = JsonVal.null :=
  ⟨rfl, rfl, rfl, rfl, rfl, rfl⟩
